import Mathlib

/-!
Verification of the persisted watchlist store of the movie-app repository.

The development shallowly embeds the TypeScript sources:

* `src/utils/watchlist.ts` — the persistence adapter (`saveWatchlist`,
  `getWatchlist`, `validateWatchlistData`) over a browser localStorage slot;
* the watchlist context provider (`WatchlistProvider` with `addToWatchlist`,
  `removeFromWatchlist`, `isInWatchlist`, `clearWatchlist`, and the two
  mount-time effects that hydrate from and persist to the durable store).

JavaScript runtime values are modelled by the inductive `JSValue`
(undefined, null, booleans, numbers, strings, arrays, objects).  The
localStorage slot under the fixed key is modelled as
`Option (Option JSValue)`: `none` is an absent (or empty, hence falsy)
stored string, `some none` is a stored string on which `JSON.parse` throws,
and `some (some v)` is a stored string that parses to the value `v`.  The
serialization layer itself is abstracted away: `JSON.stringify` composed
with `JSON.parse` is the identity on values that contain no `undefined`,
which is the case for every payload written here, so storing the parsed
value directly is faithful.  Exceptions are modelled with `Except`.
-/

/-- A JavaScript runtime value, as far as the watchlist code can observe it:
`undefined`, `null`, a boolean, a number, a string, an array, or a plain
object given by its fields in order.  Ids in this application are integral,
so numbers are carried as `Int`. -/
inductive JSValue where
  | undef
  | null
  | bool (b : Bool)
  | num (n : Int)
  | str (s : String)
  | arr (elems : List JSValue)
  | obj (fields : List (String × JSValue))

mutual

def JSValue.beq : JSValue → JSValue → Bool
  | .undef, .undef => true
  | .null, .null => true
  | .bool a, .bool b => a == b
  | .num a, .num b => a == b
  | .str a, .str b => a == b
  | .arr a, .arr b => JSValue.beqList a b
  | .obj a, .obj b => JSValue.beqFields a b
  | _, _ => false

def JSValue.beqList : List JSValue → List JSValue → Bool
  | [], [] => true
  | a :: as, b :: bs => JSValue.beq a b && JSValue.beqList as bs
  | _, _ => false

def JSValue.beqFields : List (String × JSValue) → List (String × JSValue) → Bool
  | [], [] => true
  | (k, v) :: as, (k2, v2) :: bs => k == k2 && JSValue.beq v v2 && JSValue.beqFields as bs
  | _, _ => false

end

mutual

theorem JSValue.beq_iff : ∀ a b : JSValue, JSValue.beq a b = true ↔ a = b
  | .undef, b => by cases b <;> simp [JSValue.beq]
  | .null, b => by cases b <;> simp [JSValue.beq]
  | .bool a, b => by cases b <;> simp [JSValue.beq]
  | .num a, b => by cases b <;> simp [JSValue.beq]
  | .str a, b => by cases b <;> simp [JSValue.beq]
  | .arr a, b => by
      cases b <;> simp [JSValue.beq]
      exact JSValue.beqList_iff a _
  | .obj a, b => by
      cases b <;> simp [JSValue.beq]
      exact JSValue.beqFields_iff a _

theorem JSValue.beqList_iff : ∀ a b : List JSValue, JSValue.beqList a b = true ↔ a = b
  | [], b => by cases b <;> simp [JSValue.beqList]
  | a :: as, [] => by simp [JSValue.beqList]
  | a :: as, b :: bs => by
      simp [JSValue.beqList, JSValue.beq_iff a b, JSValue.beqList_iff as bs]

theorem JSValue.beqFields_iff :
    ∀ a b : List (String × JSValue), JSValue.beqFields a b = true ↔ a = b
  | [], b => by cases b <;> simp [JSValue.beqFields]
  | a :: as, [] => by simp [JSValue.beqFields]
  | (k, v) :: as, (k2, v2) :: bs => by
      simp [JSValue.beqFields, JSValue.beq_iff v v2, JSValue.beqFields_iff as bs]

end

instance : DecidableEq JSValue := fun a b => decidable_of_iff _ (JSValue.beq_iff a b)

/-- JavaScript truthiness: `undefined`, `null`, `false`, `0` and the empty
string are falsy, every other value (including every array and object) is
truthy. -/
def truthy : JSValue → Bool
  | .undef => false
  | .null => false
  | .bool b => b
  | .num n => n != 0
  | .str s => s != ""
  | .arr _ => true
  | .obj _ => true

/-- The JavaScript `typeof` operator on a `JSValue`. -/
def typeofJS : JSValue → String
  | .undef => "undefined"
  | .null => "object"
  | .bool _ => "boolean"
  | .num _ => "number"
  | .str _ => "string"
  | .arr _ => "object"
  | .obj _ => "object"

/-- JavaScript strict equality `===` as used by the watchlist code.  Strict
equality on two arrays or two objects is reference identity; every site in
the embedded code compares a stored value against a freshly constructed
primitive, so a structural comparison that returns `false` on the
array/object cases is faithful there. -/
def jsStrictEq : JSValue → JSValue → Bool
  | .undef, .undef => true
  | .null, .null => true
  | .bool a, .bool b => a == b
  | .num a, .num b => a == b
  | .str a, .str b => a == b
  | _, _ => false

/-- JavaScript logical or `a || b`: the left operand if it is truthy,
otherwise the right operand. -/
def jsOr (a b : JSValue) : JSValue :=
  if truthy a then a else b

/-- Property access `v[k]`.  Reading a property of `null` or `undefined`
throws a TypeError (`Except.error`); reading a missing property of an
object, or any of the watchlist field names on another value, yields
`undefined`. -/
def getFieldE (v : JSValue) (k : String) : Except Unit JSValue :=
  match v with
  | .null => .error ()
  | .undef => .error ()
  | .obj fields => .ok ((List.lookup k fields).getD .undef)
  | _ => .ok (.undef)

/-- Total view of property access, used where the accessed value is known
not to be `null` or `undefined` (for example on elements of a validated
stored payload). -/
def jsFieldD (v : JSValue) (k : String) : JSValue :=
  match getFieldE v k with
  | .ok x => x
  | .error _ => (.undef)

/-- One step of the element check inside `validateWatchlistData`
(src/utils/watchlist.ts):

    typeof item.id === "string" &&
    typeof item.category === "string" &&
    (item.category === "movie" || item.category === "tv") &&
    typeof item.title === "string"

`&&` short-circuits, so the later property reads happen only when the
earlier conjuncts hold; a thrown property read (on a `null` or `undefined`
element) aborts with `Except.error`. -/
def validateWatchlistItem (item : JSValue) : Except Unit Bool :=
  match getFieldE item "id" with
  | .error e => .error e
  | .ok idv =>
      if typeofJS idv == "string" then
        match getFieldE item "category" with
        | .error e => .error e
        | .ok catv =>
            if typeofJS catv == "string"
                && (jsStrictEq catv (.str "movie") || jsStrictEq catv (.str "tv")) then
              match getFieldE item "title" with
              | .error e => .error e
              | .ok titlev => .ok (typeofJS titlev == "string")
            else
              .ok false
      else
        .ok false

/-- `data.every(...)` over the element check: short-circuits on the first
element that fails, and propagates a thrown property read. -/
def validateWatchlistItems : List JSValue → Except Unit Bool
  | [] => .ok true
  | item :: rest =>
      match validateWatchlistItem item with
      | .error e => .error e
      | .ok b => if b then validateWatchlistItems rest else .ok false

/-- `validateWatchlistData` from src/utils/watchlist.ts: `false` when the
candidate is not an array, otherwise `every` element must pass the
structural check. -/
def validateWatchlistData (data : JSValue) : Except Unit Bool :=
  match data with
  | .arr items => validateWatchlistItems items
  | _ => .ok false

/-- `getWatchlist` from src/utils/watchlist.ts, as a function of the stored
slot.  `none`: `localStorage.getItem` gave `null` (or an empty string), the
`!saved` guard returns `[]`.  `some none`: `JSON.parse` threw, the catch
returns `[]`.  `some (some parsed)`: the parsed value is returned when
`validateWatchlistData` yields `true`; a `false` verdict gives `[]`, and a
throw inside the validator is caught by the surrounding try/catch, which
also gives `[]`.  The result is the JavaScript value handed to the caller. -/
def getWatchlistJV (stored : Option (Option JSValue)) : JSValue :=
  match stored with
  | none => .arr []
  | some none => .arr []
  | some (some parsed) =>
      match validateWatchlistData parsed with
      | .ok true => parsed
      | .ok false => .arr []
      | .error _ => .arr []

/-- The elements of the array returned by `getWatchlist`.  The non-array
branch is unreachable: the result of `getWatchlistJV` is always an array. -/
def getWatchlistJ (stored : Option (Option JSValue)) : List JSValue :=
  match getWatchlistJV stored with
  | .arr l => l
  | _ => []

/-- A thrown JavaScript exception value as observed by `saveWatchlist`:
whether it is an `Error` instance, and its `name`. -/
structure JSError where
  isErrorInstance : Bool
  name : String
deriving DecidableEq

/-- The two `console.error` reports `saveWatchlist` can emit: the storage
full message for a quota failure, and the generic save failure message. -/
inductive SaveLogLine where
  | storageFull
  | saveFailed
deriving DecidableEq

/-- Outcome of one `saveWatchlist` call: the stored slot afterwards, the
report emitted (if any), and the exception propagated to the caller
(if any). -/
structure SaveResult where
  stored : Option (Option JSValue)
  logged : Option SaveLogLine
  thrown : Option JSError
deriving DecidableEq

/-- `saveWatchlist` from src/utils/watchlist.ts at the storage layer.
`payload` is the value whose serialization is handed to
`localStorage.setItem`; `write` is the behavior of the underlying store on
this call (`Except.error e` models `setItem` throwing `e`).  On a throw the
catch classifies the exception — an `Error` instance named
`QuotaExceededError` gets the storage full report, anything else the
generic report — and nothing is rethrown. -/
def saveWatchlistJS (payload : JSValue) (prev : Option (Option JSValue))
    (write : Except JSError Unit) : SaveResult :=
  match write with
  | .ok _ => { stored := some (some payload), logged := none, thrown := none }
  | .error e =>
      if e.isErrorInstance && e.name == "QuotaExceededError" then
        { stored := prev, logged := some .storageFull, thrown := none }
      else
        { stored := prev, logged := some .saveFailed, thrown := none }

/-- The `IWatchlistItem` record shape (src/types, part_000).  All fields are
declared as strings there; `category` is declared as the union of the two
literal strings `"movie"` and `"tv"`, which erases to a string at runtime,
so it is carried here as a `String` and constrained where the code
validates it. -/
structure IWatchlistItem where
  id : String
  category : String
  poster_path : String
  title : String
  original_title : String
  name : String
  overview : String
  backdrop_path : String
  addedAt : String
deriving DecidableEq

/-- The JSON object representation of an `IWatchlistItem`, with the fields
in their declared order.  This is the value `JSON.stringify` serializes and
`JSON.parse` recovers when a watchlist of this shape is saved. -/
def encodeItem (x : IWatchlistItem) : JSValue :=
  .obj [("id", .str x.id), ("category", .str x.category),
        ("poster_path", .str x.poster_path), ("title", .str x.title),
        ("original_title", .str x.original_title), ("name", .str x.name),
        ("overview", .str x.overview), ("backdrop_path", .str x.backdrop_path),
        ("addedAt", .str x.addedAt)]

/-- `saveWatchlist` applied to a typed item list: the payload written is the
JSON array of the encoded items. -/
def saveWatchlist (items : List IWatchlistItem) (prev : Option (Option JSValue))
    (write : Except JSError Unit) : SaveResult :=
  saveWatchlistJS (.arr (items.map encodeItem)) prev write

/-- Element validity exactly as the specification words it: the element has
a string `id`, a `category` equal to exactly `movie` or `tv`, and a string
`title`.  Written from the specification text (not from the code) so that
the code validator can be compared against it. -/
def specValidElement (item : JSValue) : Bool :=
  match getFieldE item "id", getFieldE item "category", getFieldE item "title" with
  | .ok idv, .ok catv, .ok titlev =>
      decide (typeofJS idv = "string")
        && (decide (catv = JSValue.str "movie") || decide (catv = JSValue.str "tv"))
        && decide (typeofJS titlev = "string")
  | _, _, _ => false

/-- An id argument as typed across the provider interface:
`removeFromWatchlist` and `isInWatchlist` take `string | number`, and the
candidates handed to `addToWatchlist` carry ids from the same domain. -/
inductive IdInput where
  | str (s : String)
  | num (n : Int)
deriving DecidableEq

/-- The JavaScript `String(x)` coercion on that domain: a string stays
itself and an integral number prints in base ten with a leading minus sign
when negative, matching `Int` printing. -/
def jsStringCoerce : IdInput → String
  | .str s => s
  | .num n => toString n

/-- A loosely typed candidate object handed to `addToWatchlist` (the
parameter is typed `any` in the source).  Any field other than the id may
hold any JavaScript value, `undefined` standing for an omitted field. -/
structure Candidate where
  id : IdInput
  category : JSValue
  poster_path : JSValue
  title : JSValue
  original_title : JSValue
  name : JSValue
  overview : JSValue
  backdrop_path : JSValue
deriving DecidableEq

/-- An in-memory watchlist item as it exists at runtime: a JavaScript
object read through the `IWatchlistItem` field set.  TypeScript types are
erased at runtime, so fields can hold any value — in particular `undefined`
when the construction in `addToWatchlist` copied an absent candidate
field. -/
structure JSItem where
  id : JSValue
  category : JSValue
  poster_path : JSValue
  title : JSValue
  original_title : JSValue
  name : JSValue
  overview : JSValue
  backdrop_path : JSValue
  addedAt : JSValue
deriving DecidableEq

/-- The `newItem` construction inside `addToWatchlist` (watchlist context
provider):

    id: movieId,
    category: movie.category || "movie",
    poster_path: movie.poster_path,
    title: movie.original_title || movie.name || movie.title,
    original_title: movie.original_title || "",
    name: movie.name || "",
    overview: movie.overview,
    backdrop_path: movie.backdrop_path,
    addedAt: new Date().toISOString()

with `now` the ISO timestamp taken at the call. -/
def newWatchlistItem (movie : Candidate) (now : String) : JSItem :=
  { id := .str (jsStringCoerce movie.id)
    category := jsOr movie.category (.str "movie")
    poster_path := movie.poster_path
    title := jsOr movie.original_title (jsOr movie.name movie.title)
    original_title := jsOr movie.original_title (.str "")
    name := jsOr movie.name (.str "")
    overview := movie.overview
    backdrop_path := movie.backdrop_path
    addedAt := .str now }

/-- `addToWatchlist` from the provider: canonicalize the candidate id with
`String(...)`, return the collection unchanged when some item already
carries that id, otherwise prepend the constructed item. -/
def addToWatchlist (watchlistItems : List JSItem) (movie : Candidate)
    (now : String) : List JSItem :=
  let movieId := jsStringCoerce movie.id
  if watchlistItems.any (fun item => jsStrictEq item.id (.str movieId)) then
    watchlistItems
  else
    newWatchlistItem movie now :: watchlistItems

/-- `removeFromWatchlist` from the provider: canonicalize the id and keep
exactly the items whose id differs from it. -/
def removeFromWatchlist (watchlistItems : List JSItem) (id : IdInput) : List JSItem :=
  let idString := jsStringCoerce id
  watchlistItems.filter (fun item => !(jsStrictEq item.id (.str idString)))

/-- `isInWatchlist` from the provider: canonicalize the id and test whether
some item carries it. -/
def isInWatchlist (watchlistItems : List JSItem) (id : IdInput) : Bool :=
  let idString := jsStringCoerce id
  watchlistItems.any (fun item => jsStrictEq item.id (.str idString))

/-- `clearWatchlist` from the provider: the state becomes the empty
collection. -/
def clearWatchlist : List JSItem :=
  []

/-- A parsed JSON object seen through the `IWatchlistItem` field set.  In
JavaScript this is the identity — the parsed object simply is the item —
and the elements it is applied to are validated, hence never `null` or
`undefined`, so the total field view is exact. -/
def toJSItem (v : JSValue) : JSItem :=
  { id := jsFieldD v "id"
    category := jsFieldD v "category"
    poster_path := jsFieldD v "poster_path"
    title := jsFieldD v "title"
    original_title := jsFieldD v "original_title"
    name := jsFieldD v "name"
    overview := jsFieldD v "overview"
    backdrop_path := jsFieldD v "backdrop_path"
    addedAt := jsFieldD v "addedAt" }

/-- The state the load effect installs: the array returned by
`getWatchlist`, each element viewed as an in-memory item. -/
def hydrateWatchlist (stored : Option (Option JSValue)) : List JSItem :=
  (getWatchlistJ stored).map toJSItem

/-- `JSON.stringify` of an in-memory item: fields holding `undefined` are
dropped from the serialized object. -/
def encodeJSItem (it : JSItem) : JSValue :=
  .obj (([("id", it.id), ("category", it.category),
          ("poster_path", it.poster_path), ("title", it.title),
          ("original_title", it.original_title), ("name", it.name),
          ("overview", it.overview), ("backdrop_path", it.backdrop_path),
          ("addedAt", it.addedAt)]).filter (fun p => !(jsStrictEq p.2 .undef)))

/-- The save effect of the provider: it serializes the current in-memory
items and hands them to `saveWatchlist`; it never modifies the in-memory
collection, whatever the underlying store does. -/
def runSaveEffect (items : List JSItem) (prev : Option (Option JSValue))
    (write : Except JSError Unit) : List JSItem × SaveResult :=
  (items, saveWatchlistJS (.arr (items.map encodeJSItem)) prev write)

/-- Observable trace of mounting `WatchlistProvider` over a given stored
slot, with the writes to the durable store succeeding. -/
structure MountTrace where
  firstWritePayload : JSValue
  storeAfterFirstWrite : Option (Option JSValue)
  hydratedItems : List JSItem
  secondWritePayload : JSValue
  storeAfterSecondWrite : Option (Option JSValue)
deriving DecidableEq

/-- Mounting `WatchlistProvider`, following the commit semantics of React
effects.  The initial render has `watchlistItems = []`.  The two effects of
the provider then run in declaration order: the load effect reads the store
with `getWatchlist` and schedules `setWatchlistItems(saved)`, a state
update that only takes effect at the next render; the save effect then runs
with the still current initial state and calls `saveWatchlist([])`.  The
scheduled update re-renders with the hydrated items, whereupon the save
effect runs again (its dependency changed) and writes the hydrated items
back.  The elements of a stored payload are raw parsed JSON, so their
serialization reproduces the loaded array exactly. -/
def mountWatchlistProvider (store0 : Option (Option JSValue)) : MountTrace :=
  let loaded := getWatchlistJ store0
  let w1 : JSValue := .arr []
  let r1 := saveWatchlistJS w1 store0 (.ok ())
  let w2 : JSValue := .arr loaded
  let r2 := saveWatchlistJS w2 r1.stored (.ok ())
  { firstWritePayload := w1
    storeAfterFirstWrite := r1.stored
    hydratedItems := loaded.map toJSItem
    secondWritePayload := w2
    storeAfterSecondWrite := r2.stored }

/-- Folding a sequence of `addToWatchlist` calls, each given by a candidate
and the timestamp of the call, over a starting collection. -/
def addSequence (l : List JSItem) (calls : List (Candidate × String)) : List JSItem :=
  calls.foldl (fun acc c => addToWatchlist acc c.1 c.2) l

/-- The collections the provider state can hold: the initial empty state,
a hydrated load result whose ids are pairwise distinct, and anything
reachable from such a state through the three mutation operations. -/
inductive WatchlistReachable : List JSItem → Prop where
  | initial : WatchlistReachable []
  | hydrated (stored : Option (Option JSValue))
      (hdistinct : (hydrateWatchlist stored).Pairwise (fun a b => a.id ≠ b.id)) :
      WatchlistReachable (hydrateWatchlist stored)
  | add (l : List JSItem) (movie : Candidate) (now : String) :
      WatchlistReachable l → WatchlistReachable (addToWatchlist l movie now)
  | remove (l : List JSItem) (id : IdInput) :
      WatchlistReachable l → WatchlistReachable (removeFromWatchlist l id)
  | cleared (l : List JSItem) :
      WatchlistReachable l → WatchlistReachable clearWatchlist

/-- A fully populated stored item with id the numeric-looking string 42. -/
def item42JSON : JSValue :=
  .obj [("id", .str "42"), ("category", .str "movie"),
        ("poster_path", .str "/p.png"), ("title", .str "The Answer"),
        ("original_title", .str "The Answer"), ("name", .str ""),
        ("overview", .str "An overview."), ("backdrop_path", .str "/b.png"),
        ("addedAt", .str "2024-01-01T00:00:00.000Z")]

/-- A durable store pre-populated with the one-item collection above. -/
def store42 : Option (Option JSValue) :=
  some (some (.arr [item42JSON]))

/-- A stored element that passes the structural validation while carrying
only the three checked fields. -/
def dupPayloadItem : JSValue :=
  .obj [("id", .str "1"), ("category", .str "movie"), ("title", .str "Twice")]

/-- A durable store holding that element twice: two stored items with the
same id. -/
def dupStore : Option (Option JSValue) :=
  some (some (.arr [dupPayloadItem, dupPayloadItem]))

/-- A candidate that omits every optional field: only an id is supplied. -/
def bareCandidate : Candidate :=
  { id := .num 7, category := .undef, poster_path := .undef, title := .undef,
    original_title := .undef, name := .undef, overview := .undef,
    backdrop_path := .undef }

/-- A well-formed candidate with numeric id 1. -/
def candOne : Candidate :=
  { id := .num 1, category := .str "movie", poster_path := .str "/a.png",
    title := .undef, original_title := .str "Alpha", name := .undef,
    overview := .str "First.", backdrop_path := .str "/ab.png" }

/-- A well-formed candidate with numeric id 2. -/
def candTwo : Candidate :=
  { id := .num 2, category := .str "tv", poster_path := .str "/b.png",
    title := .undef, original_title := .undef, name := .str "Beta",
    overview := .str "Second.", backdrop_path := .str "/bb.png" }

/-- A candidate with numeric id 7, for the duplicate-add runs. -/
def candSeven1 : Candidate :=
  { id := .num 7, category := .str "movie", poster_path := .str "/c.png",
    title := .undef, original_title := .str "Gamma", name := .undef,
    overview := .str "Third.", backdrop_path := .str "/cb.png" }

/-- A different candidate whose string id coerces to the same canonical id
as `candSeven1`. -/
def candSeven2 : Candidate :=
  { id := .str "7", category := .str "tv", poster_path := .str "/d.png",
    title := .undef, original_title := .undef, name := .str "Delta",
    overview := .str "Fourth.", backdrop_path := .str "/db.png" }

/-- A typed item of the declared schema, for the round-trip run. -/
def sampleItem : IWatchlistItem :=
  { id := "42", category := "movie", poster_path := "/p.png",
    title := "The Answer", original_title := "The Answer", name := "",
    overview := "An overview.", backdrop_path := "/b.png",
    addedAt := "2024-01-01T00:00:00.000Z" }

theorem jsStrictEq_str_iff (v : JSValue) (s : String) :
    jsStrictEq v (.str s) = true ↔ v = .str s := by
  cases v <;> simp [jsStrictEq]

theorem addToWatchlist_mem_noop (l : List JSItem) (movie : Candidate) (now : String)
    (h : ∃ item ∈ l, item.id = .str (jsStringCoerce movie.id)) :
    addToWatchlist l movie now = l := by
  obtain ⟨item, hmem, hid⟩ := h
  have hany : l.any (fun it => jsStrictEq it.id (.str (jsStringCoerce movie.id))) = true := by
    refine List.any_eq_true.mpr ⟨item, hmem, ?_⟩
    exact (jsStrictEq_str_iff _ _).mpr hid
  simp [addToWatchlist, hany]

theorem addToWatchlist_fresh (l : List JSItem) (movie : Candidate) (now : String)
    (h : ∀ item ∈ l, item.id ≠ .str (jsStringCoerce movie.id)) :
    addToWatchlist l movie now = newWatchlistItem movie now :: l := by
  have hany : l.any (fun it => jsStrictEq it.id (.str (jsStringCoerce movie.id))) = false := by
    simp only [List.any_eq_false]
    intro item hmem
    simp [jsStrictEq_str_iff, h item hmem]
  simp [addToWatchlist, hany]

theorem addSequence_noop (s : String) :
    ∀ (calls : List (Candidate × String)) (l : List JSItem),
      (∀ p ∈ calls, jsStringCoerce p.1.id = s) →
      (∃ item ∈ l, item.id = .str s) →
      addSequence l calls = l
  | [], l, _, _ => rfl
  | c :: rest, l, hcalls, hmem => by
      have hc : jsStringCoerce c.1.id = s := hcalls c (List.mem_cons_self c rest)
      have hstep : addToWatchlist l c.1 c.2 = l :=
        addToWatchlist_mem_noop l c.1 c.2 (by rw [hc]; exact hmem)
      have htail : addSequence l rest = l :=
        addSequence_noop s rest l (fun p hp => hcalls p (List.mem_cons_of_mem c hp)) hmem
      calc addSequence l (c :: rest)
          = addSequence (addToWatchlist l c.1 c.2) rest := rfl
        _ = addSequence l rest := by rw [hstep]
        _ = l := htail

theorem validateCore_iff (idv catv titlev : JSValue) :
    ((if typeofJS idv == "string" then
        (if typeofJS catv == "string"
            && (jsStrictEq catv (.str "movie") || jsStrictEq catv (.str "tv")) then
          (Except.ok (typeofJS titlev == "string") : Except Unit Bool)
        else .ok false)
      else .ok false) = .ok true)
    ↔ (decide (typeofJS idv = "string")
        && (decide (catv = JSValue.str "movie") || decide (catv = JSValue.str "tv"))
        && decide (typeofJS titlev = "string")) = true := by
  cases idv <;> cases catv <;> cases titlev <;> simp [typeofJS, jsStrictEq]
  all_goals tauto

theorem validateWatchlistItem_iff_spec (item : JSValue) :
    validateWatchlistItem item = .ok true ↔ specValidElement item = true := by
  cases item <;>
    simp only [validateWatchlistItem, specValidElement, getFieldE] <;>
      first
        | exact validateCore_iff _ _ _
        | simp

theorem validateWatchlistItems_ok_iff (l : List JSValue) :
    validateWatchlistItems l = .ok true ↔
      ∀ item ∈ l, validateWatchlistItem item = .ok true := by
  induction l with
  | nil => simp [validateWatchlistItems]
  | cons item rest ih =>
      cases h : validateWatchlistItem item with
      | error e =>
          simp only [validateWatchlistItems, h, List.mem_cons]
          constructor
          · intro hfalse
            exact absurd hfalse (Except.noConfusion)
          · intro hall
            have := hall item (Or.inl rfl)
            rw [h] at this
            exact absurd this (Except.noConfusion)
      | ok b =>
          cases b with
          | true =>
              simp only [validateWatchlistItems, h, if_true, ih, List.mem_cons]
              constructor
              · intro hall a ha
                rcases ha with ha | ha
                · rw [ha]; exact h
                · exact hall a ha
              · intro hall a ha
                exact hall a (Or.inr ha)
          | false =>
              simp only [validateWatchlistItems, h, if_false, List.mem_cons]
              constructor
              · intro hfalse
                exact absurd (Except.ok.inj hfalse) (by simp)
              · intro hall
                have := hall item (Or.inl rfl)
                rw [h] at this
                exact absurd (Except.ok.inj this) (by simp)

theorem validateWatchlistData_ok_iff (v : JSValue) :
    validateWatchlistData v = .ok true ↔
      ∃ l, v = .arr l ∧ ∀ item ∈ l, specValidElement item = true := by
  cases v <;> simp [validateWatchlistData]
  case arr elems =>
    rw [validateWatchlistItems_ok_iff]
    constructor
    · intro h
      exact fun item hm => (validateWatchlistItem_iff_spec item).mp (h item hm)
    · intro hall
      exact fun item hm => (validateWatchlistItem_iff_spec item).mpr (hall item hm)

theorem jsStrictEq_str_false_iff (v : JSValue) (s : String) :
    jsStrictEq v (.str s) = false ↔ v ≠ .str s := by
  rw [Bool.eq_false_iff]
  exact not_congr (jsStrictEq_str_iff v s)

/-- Claim C1.  The claim states that no write to the durable store occurs
between process start and the completion of the first hydration, so that a
store pre-populated with a collection C is never overwritten with the
pre-hydration empty collection.  The code violates this: the save effect of
`WatchlistProvider` has no hydration guard, so on mount it runs once with
the initial empty state — after the load effect has read the store but
before the hydrated state takes effect — and writes the empty collection
over C.  Evaluating the mount trace on a store pre-populated with a
one-item collection: the first write carries the empty array, the store
momentarily holds the empty collection in place of C, and only the second
write (after the re-render) restores C. -/
theorem c1_mount_writes_before_hydration :
    (mountWatchlistProvider store42).firstWritePayload = JSValue.arr []
    ∧ (mountWatchlistProvider store42).storeAfterFirstWrite = some (some (JSValue.arr []))
    ∧ (mountWatchlistProvider store42).storeAfterFirstWrite ≠ store42
    ∧ (mountWatchlistProvider store42).hydratedItems = [toJSItem item42JSON]
    ∧ (mountWatchlistProvider store42).storeAfterSecondWrite = store42 := by
  decide

/-- Claim C2 counterexample.  The claim includes collections hydrated from
any stored payload that passes validation, but `validateWatchlistData` does
not check id uniqueness: a stored payload holding the same element twice
passes validation and hydrates to a collection whose ids are not pairwise
distinct. -/
theorem c2_counterexample_duplicate_ids_pass_validation :
    validateWatchlistData (JSValue.arr [dupPayloadItem, dupPayloadItem]) = .ok true
    ∧ hydrateWatchlist dupStore = [toJSItem dupPayloadItem, toJSItem dupPayloadItem]
    ∧ (toJSItem dupPayloadItem).id = JSValue.str "1"
    ∧ ¬ (hydrateWatchlist dupStore).Pairwise (fun a b => a.id ≠ b.id) := by
  refine ⟨rfl, by decide, by decide, ?_⟩
  intro h
  have h12 := List.rel_of_pairwise_cons h (List.mem_cons_self _ _)
  exact h12 rfl

/-- Claim C2 as amended: in the initial empty collection, in any collection
hydrated from a stored payload whose ids are pairwise distinct, and in
anything reachable from those through add, remove and clear, the item ids
are pairwise distinct.  (Hydration from a validated payload with duplicated
ids is excluded: validation does not check uniqueness.) -/
theorem c2_reachable_ids_pairwise_distinct (l : List JSItem)
    (h : WatchlistReachable l) :
    l.Pairwise (fun a b => a.id ≠ b.id) := by
  induction h with
  | initial => exact List.Pairwise.nil
  | hydrated stored hdist => exact hdist
  | add l movie now hr ih =>
      by_cases hmem : ∃ item ∈ l, item.id = .str (jsStringCoerce movie.id)
      · rw [addToWatchlist_mem_noop l movie now hmem]
        exact ih
      · push_neg at hmem
        rw [addToWatchlist_fresh l movie now hmem]
        refine List.Pairwise.cons ?_ ih
        intro a ha heq
        exact hmem a ha heq.symm
  | remove l id hr ih =>
      exact List.Pairwise.sublist (List.filter_sublist l) ih
  | cleared l hr ih => exact List.Pairwise.nil

/-- Witness for the amended C2: a concrete reachable collection (one add on
the empty state) has pairwise distinct ids. -/
theorem c2_reachable_ids_pairwise_distinct_witness :
    (addToWatchlist [] candOne "2024-03-03T00:00:00.000Z").Pairwise
      (fun a b => a.id ≠ b.id) :=
  c2_reachable_ids_pairwise_distinct _
    (WatchlistReachable.add [] candOne "2024-03-03T00:00:00.000Z"
      WatchlistReachable.initial)

/-- Claim C3.  The claim states that the constructed item falls back to the
empty string for the title when the candidate carries none of
`original_title`, `name` and `title`, and that every field of the
constructed item is string-typed.  The code violates this — the
construction reads `movie.original_title || movie.name || movie.title` with
no final empty-string branch, and copies `poster_path`, `overview` and
`backdrop_path` with no default — so a candidate carrying only an id
produces `undefined` in those fields, contradicting the declared
`IWatchlistItem` schema.  Evaluating the construction at that candidate:
the title is `undefined`, not the empty string, and `backdrop_path` is not
string-typed, while the category default to `movie` and the id coercion do
behave as claimed. -/
theorem c3_bare_candidate_item_not_string_typed :
    (newWatchlistItem bareCandidate "2024-02-02T00:00:00.000Z").title = JSValue.undef
    ∧ (newWatchlistItem bareCandidate "2024-02-02T00:00:00.000Z").title ≠ JSValue.str ""
    ∧ typeofJS (newWatchlistItem bareCandidate "2024-02-02T00:00:00.000Z").title ≠ "string"
    ∧ typeofJS (newWatchlistItem bareCandidate "2024-02-02T00:00:00.000Z").backdrop_path ≠ "string"
    ∧ (newWatchlistItem bareCandidate "2024-02-02T00:00:00.000Z").category = JSValue.str "movie"
    ∧ (newWatchlistItem bareCandidate "2024-02-02T00:00:00.000Z").id = JSValue.str "7" := by
  decide

/-- Claim C4: the loader is total over the stored slot.  An absent value
loads as the empty collection; an unparseable value loads as the empty
collection; a parsed value that is an array in which every element has a
string id, a category exactly movie or tv, and a string title loads as that
value; and any other parsed value — including an array in which a single
element fails the check — loads as the empty collection, the validator
verdict (or the exception it raises on a null element, caught by the
loader) discarding the entire candidate. -/
theorem c4_load_total (stored : Option (Option JSValue)) :
    (stored = none → getWatchlistJV stored = .arr [])
    ∧ (stored = some none → getWatchlistJV stored = .arr [])
    ∧ (∀ v, stored = some (some v) →
        ((∃ l, v = .arr l ∧ ∀ item ∈ l, specValidElement item = true) →
            getWatchlistJV stored = v)
        ∧ ((¬ ∃ l, v = .arr l ∧ ∀ item ∈ l, specValidElement item = true) →
            getWatchlistJV stored = .arr [])) := by
  refine ⟨?_, ?_, ?_⟩
  · intro h
    subst h
    rfl
  · intro h
    subst h
    rfl
  · intro v hv
    subst hv
    constructor
    · intro hval
      have hok := (validateWatchlistData_ok_iff v).mpr hval
      simp [getWatchlistJV, hok]
    · intro hval
      have hne : validateWatchlistData v ≠ .ok true :=
        fun hc => hval ((validateWatchlistData_ok_iff v).mp hc)
      cases hres : validateWatchlistData v with
      | error e => simp [getWatchlistJV, hres]
      | ok b =>
          cases b with
          | true => exact absurd hres hne
          | false => simp [getWatchlistJV, hres]

/-- Witness for C4: a valid stored payload loads as itself, an unparseable
stored value loads as the empty collection, and a parsed non-array loads as
the empty collection. -/
theorem c4_load_total_witness :
    getWatchlistJV (some (some (JSValue.arr [item42JSON]))) = JSValue.arr [item42JSON]
    ∧ getWatchlistJV (some none) = JSValue.arr []
    ∧ getWatchlistJV (some (some (JSValue.str "junk"))) = JSValue.arr [] :=
  ⟨((c4_load_total _).2.2 _ rfl).1 ⟨[item42JSON], rfl, by decide⟩,
   (c4_load_total (some none)).2.1 rfl,
   ((c4_load_total _).2.2 _ rfl).2 (by rintro ⟨l, hl, -⟩; exact JSValue.noConfusion hl)⟩

/-- Claim C5: for a sequence of add calls whose candidates share the same
canonical id (and whose id is not already taken in the starting
collection), the first call prepends its constructed item and every later
call is a no-op, so the final collection equals the collection right after
the first call, contains exactly one item with that id, and that item
carries the timestamp of the first call. -/
theorem c5_repeated_add_same_id (s : String) (l0 : List JSItem) (c1 : Candidate)
    (t1 : String) (rest : List (Candidate × String))
    (h0 : ∀ item ∈ l0, item.id ≠ JSValue.str s)
    (h1 : jsStringCoerce c1.id = s)
    (h2 : ∀ p ∈ rest, jsStringCoerce p.1.id = s) :
    addSequence l0 ((c1, t1) :: rest) = newWatchlistItem c1 t1 :: l0
    ∧ (addSequence l0 ((c1, t1) :: rest)).countP
        (fun item => jsStrictEq item.id (JSValue.str s)) = 1
    ∧ ∀ item ∈ addSequence l0 ((c1, t1) :: rest),
        item.id = JSValue.str s → item.addedAt = JSValue.str t1 := by
  have hfresh : addToWatchlist l0 c1 t1 = newWatchlistItem c1 t1 :: l0 :=
    addToWatchlist_fresh l0 c1 t1 (by rw [h1]; exact h0)
  have hid : (newWatchlistItem c1 t1).id = JSValue.str s := by
    simp [newWatchlistItem, h1]
  have hmain : addSequence l0 ((c1, t1) :: rest) = newWatchlistItem c1 t1 :: l0 := by
    have hstep : addSequence l0 ((c1, t1) :: rest)
        = addSequence (addToWatchlist l0 c1 t1) rest := rfl
    rw [hstep, hfresh]
    exact addSequence_noop s rest _ h2
      ⟨newWatchlistItem c1 t1, List.mem_cons_self _ _, hid⟩
  refine ⟨hmain, ?_, ?_⟩
  · rw [hmain]
    have hl0 : l0.countP (fun item => jsStrictEq item.id (JSValue.str s)) = 0 := by
      rw [List.countP_eq_zero]
      intro a ha
      simp only [ne_eq, jsStrictEq_str_iff]
      exact h0 a ha
    have hpnew : jsStrictEq (newWatchlistItem c1 t1).id (JSValue.str s) = true := by
      rw [hid]
      simp [jsStrictEq]
    simp [List.countP_cons, hl0, hpnew]
  · rw [hmain]
    intro item hm hids
    rcases List.mem_cons.mp hm with hcase | hcase
    · rw [hcase]
      rfl
    · exact absurd hids (h0 item hcase)

/-- Witness for C5: two adds with canonical id 7 — a numeric id and a
string id — starting from the empty collection leave exactly the item of
the first call. -/
theorem c5_repeated_add_same_id_witness :
    addSequence []
        [(candSeven1, "2024-01-01T00:00:00.000Z"), (candSeven2, "2024-01-02T00:00:00.000Z")]
      = [newWatchlistItem candSeven1 "2024-01-01T00:00:00.000Z"] :=
  (c5_repeated_add_same_id "7" [] candSeven1 "2024-01-01T00:00:00.000Z"
    [(candSeven2, "2024-01-02T00:00:00.000Z")] (by simp) (by decide) (by decide)).1

/-- Claim C6 counterexample.  The claim quantifies over every starting
collection, but when the first candidate's canonical id is already present
the first add is a no-op, so the result is not the claimed
most-recent-first three-element shape. -/
theorem c6_counterexample_duplicate_first_add :
    addToWatchlist
        (addToWatchlist [newWatchlistItem candOne "2024-01-01T00:00:00.000Z"]
          candOne "2024-01-02T00:00:00.000Z")
        candTwo "2024-01-03T00:00:00.000Z"
      ≠ newWatchlistItem candTwo "2024-01-03T00:00:00.000Z"
          :: newWatchlistItem candOne "2024-01-02T00:00:00.000Z"
          :: [newWatchlistItem candOne "2024-01-01T00:00:00.000Z"]
    ∧ addToWatchlist
        (addToWatchlist [newWatchlistItem candOne "2024-01-01T00:00:00.000Z"]
          candOne "2024-01-02T00:00:00.000Z")
        candTwo "2024-01-03T00:00:00.000Z"
      = [newWatchlistItem candTwo "2024-01-03T00:00:00.000Z",
         newWatchlistItem candOne "2024-01-01T00:00:00.000Z"] := by
  decide

/-- Claim C6 as amended: for every collection and candidates a and b with
distinct canonical ids neither of which is already present in the
collection, add(a) then add(b) yields the constructed item of b, then that
of a, then the previous items in their previous order. -/
theorem c6_add_prepends_fresh (prev : List JSItem) (a b : Candidate) (ta tb : String)
    (ha : ∀ item ∈ prev, item.id ≠ JSValue.str (jsStringCoerce a.id))
    (hb : ∀ item ∈ prev, item.id ≠ JSValue.str (jsStringCoerce b.id))
    (hab : jsStringCoerce a.id ≠ jsStringCoerce b.id) :
    addToWatchlist (addToWatchlist prev a ta) b tb
      = newWatchlistItem b tb :: newWatchlistItem a ta :: prev := by
  rw [addToWatchlist_fresh prev a ta ha]
  refine addToWatchlist_fresh _ b tb ?_
  intro item hm
  rcases List.mem_cons.mp hm with hcase | hcase
  · rw [hcase]
    simpa [newWatchlistItem] using hab
  · exact hb item hcase

/-- Witness for the amended C6: two fresh adds on the empty collection land
most recent first. -/
theorem c6_add_prepends_fresh_witness :
    addToWatchlist (addToWatchlist [] candOne "2024-01-01T00:00:00.000Z")
        candTwo "2024-01-02T00:00:00.000Z"
      = [newWatchlistItem candTwo "2024-01-02T00:00:00.000Z",
         newWatchlistItem candOne "2024-01-01T00:00:00.000Z"] :=
  c6_add_prepends_fresh [] candOne candTwo "2024-01-01T00:00:00.000Z"
    "2024-01-02T00:00:00.000Z" (by simp) (by simp) (by decide)

/-- Claim C7: saving a collection that passes schema validation and loading
immediately afterwards reproduces the collection exactly — the stored slot
holds the encoded array, the loader returns it unchanged (same items, same
field values, same order), and the encoding is injective, so the returned
value determines the collection field for field. -/
theorem c7_save_then_load_roundtrip (c : List IWatchlistItem)
    (prev : Option (Option JSValue))
    (h : validateWatchlistData (.arr (c.map encodeItem)) = .ok true) :
    (saveWatchlist c prev (.ok ())).stored = some (some (.arr (c.map encodeItem)))
    ∧ getWatchlistJV (saveWatchlist c prev (.ok ())).stored = .arr (c.map encodeItem)
    ∧ getWatchlistJ (saveWatchlist c prev (.ok ())).stored = c.map encodeItem
    ∧ ∀ x y : IWatchlistItem, encodeItem x = encodeItem y → x = y := by
  refine ⟨rfl, ?_, ?_, ?_⟩
  · simp [saveWatchlist, saveWatchlistJS, getWatchlistJV, h]
  · simp [saveWatchlist, saveWatchlistJS, getWatchlistJ, getWatchlistJV, h]
  · intro x y hxy
    cases x
    cases y
    simp only [encodeItem, JSValue.obj.injEq, List.cons.injEq, Prod.mk.injEq,
      JSValue.str.injEq, and_true, true_and] at hxy
    simp_all

/-- Witness for C7: saving the one-item sample collection and loading gives
back exactly its encoded array. -/
theorem c7_save_then_load_roundtrip_witness :
    getWatchlistJV (saveWatchlist [sampleItem] none (.ok ())).stored
      = JSValue.arr ([sampleItem].map encodeItem) :=
  (c7_save_then_load_roundtrip [sampleItem] none rfl).2.1

/-- Claim C8: when the underlying durable store rejects a write, the save
effect leaves the in-memory collection untouched, propagates nothing to the
caller, leaves the stored slot as it was, and reports a quota failure (an
Error instance named QuotaExceededError) differently from every other
failure; moreover no write outcome whatsoever makes the save throw. -/
theorem c8_save_failure_not_propagated (items : List JSItem)
    (prev : Option (Option JSValue)) (e : JSError) :
    (runSaveEffect items prev (.error e)).1 = items
    ∧ (runSaveEffect items prev (.error e)).2.thrown = none
    ∧ (runSaveEffect items prev (.error e)).2.stored = prev
    ∧ (e.isErrorInstance = true ∧ e.name = "QuotaExceededError" →
        (runSaveEffect items prev (.error e)).2.logged = some SaveLogLine.storageFull)
    ∧ (¬ (e.isErrorInstance = true ∧ e.name = "QuotaExceededError") →
        (runSaveEffect items prev (.error e)).2.logged = some SaveLogLine.saveFailed)
    ∧ ∀ write : Except JSError Unit, (runSaveEffect items prev write).2.thrown = none := by
  refine ⟨rfl, ?_, ?_, ?_, ?_, ?_⟩
  · simp only [runSaveEffect, saveWatchlistJS]
    split <;> rfl
  · simp only [runSaveEffect, saveWatchlistJS]
    split <;> rfl
  · rintro ⟨hi, hn⟩
    simp [runSaveEffect, saveWatchlistJS, hi, hn]
  · intro hq
    have hc : (e.isErrorInstance && e.name == "QuotaExceededError") = false := by
      by_cases hi : e.isErrorInstance = true
      · have hn : e.name ≠ "QuotaExceededError" := fun hn => hq ⟨hi, hn⟩
        simp [hi, hn]
      · simp [Bool.eq_false_iff.mpr hi]
    simp [runSaveEffect, saveWatchlistJS, hc]
  · intro write
    cases write with
    | ok u => rfl
    | error e2 =>
        simp only [runSaveEffect, saveWatchlistJS]
        split <;> rfl

/-- Witness for C8: a quota failure is reported as storage full, any other
thrown value as a generic save failure. -/
theorem c8_save_failure_not_propagated_witness :
    (runSaveEffect [] none
        (.error { isErrorInstance := true, name := "QuotaExceededError" })).2.logged
      = some SaveLogLine.storageFull
    ∧ (runSaveEffect [] none
        (.error { isErrorInstance := false, name := "SecurityError" })).2.logged
      = some SaveLogLine.saveFailed :=
  ⟨(c8_save_failure_not_propagated [] none _).2.2.2.1 ⟨rfl, rfl⟩,
   (c8_save_failure_not_propagated [] none _).2.2.2.2.1 (by simp)⟩

/-- Claim C9: membership is keyed by the canonical string id — for every
collection and every string or numeric input, `isInWatchlist` holds exactly
when some item carries the string coercion of the input as its id; and on
the collection hydrated from a payload holding one item with id the string
42, the numeric query 42 canonicalizes and succeeds. -/
theorem c9_membership_by_canonical_id :
    (∀ (l : List JSItem) (x : IdInput),
        isInWatchlist l x = true ↔ ∃ item ∈ l, item.id = JSValue.str (jsStringCoerce x))
    ∧ hydrateWatchlist store42 = [toJSItem item42JSON]
    ∧ (toJSItem item42JSON).id = JSValue.str "42"
    ∧ isInWatchlist (hydrateWatchlist store42) (.num 42) = true := by
  refine ⟨?_, by decide, by decide, by decide⟩
  intro l x
  simp [isInWatchlist, List.any_eq_true, jsStrictEq_str_iff]

/-- Claim C10: removal is keyed by the canonical string id — an item
survives `removeFromWatchlist` exactly when it was present and its id
differs from the canonical string of the argument, and when no item carries
that id the collection is left exactly unchanged. -/
theorem c10_remove_by_canonical_id (l : List JSItem) (x : IdInput) :
    (∀ item, item ∈ removeFromWatchlist l x ↔
        item ∈ l ∧ item.id ≠ JSValue.str (jsStringCoerce x))
    ∧ ((∀ item ∈ l, item.id ≠ JSValue.str (jsStringCoerce x)) →
        removeFromWatchlist l x = l) := by
  constructor
  · intro item
    simp [removeFromWatchlist, List.mem_filter, jsStrictEq_str_false_iff]
  · intro h
    simp only [removeFromWatchlist]
    rw [List.filter_eq_self]
    intro a ha
    rw [Bool.not_eq_eq_eq_not, Bool.not_true, jsStrictEq_str_false_iff]
    exact h a ha

/-- Witness for C10: removing id 9 from a one-item collection whose item
has id 1 leaves it unchanged. -/
theorem c10_remove_by_canonical_id_witness :
    removeFromWatchlist [newWatchlistItem candOne "2024-01-01T00:00:00.000Z"] (.num 9)
      = [newWatchlistItem candOne "2024-01-01T00:00:00.000Z"] :=
  (c10_remove_by_canonical_id _ _).2 (by decide)
